import Mathlib

/-!
Verification of the ZDT stepper-motor control library
(`src/utils/stepperMotorControl.py`) against its specification.

The Python source is shallowly embedded:
* each command-encoder function becomes a total Lean function returning
  `List Nat` — this source is MicroPython (`time.ticks_ms`, `uart.any`),
  whose `bytearray` item store truncates the stored value to its low
  8 bits instead of raising, which the embedding models with `pyByte`;
* `Receive_Data`'s polling loop becomes a fuel-indexed recursion `rdRun`
  over an explicit environment: a monotone millisecond clock
  `clock : Nat → Nat` (the value `time.ticks_ms()` returns at the k-th
  loop iteration) and a list of timed byte arrivals `(t, b)` meaning
  byte `b` is available in the uart's buffer from time `t` on;
* the hex-string normalization performed on the accumulated buffer
  (`"{:02x}".format`, `" ".join`, `.strip("00 ")`, the conditional
  re-prepend of `"0"`, and the final count) becomes `hexNormalize`;
* the decoding logic of `Real_time_location` becomes `decodeFrom`
  (operating, as in the source, on the normalized hex string), with
  Python exceptions (`IndexError` from `data_hex[1]`, `ValueError` from
  `bytes.fromhex` on odd-length input, `struct.error` from unpacking a
  buffer that is not 4 bytes) modeled as `Except.error`.
-/

/-- Storing a value into a MicroPython `bytearray` cell: the store is a
raw `unsigned char` store that truncates to the low 8 bits; it never
raises.  (Inputs are nonnegative `Nat`s in this model.) -/
def pyByte (v : Nat) : Nat := v % 256

/-- `0x01 if flag else 0x00`. -/
def boolByte (b : Bool) : Nat := if b then 0x01 else 0x00

/-- The `func_codes` dictionary of `Read_Sys_Params`. -/
def func_codes (s : String) : Option Nat :=
  if s = "S_VER" then some 0x1F
  else if s = "S_RL" then some 0x20
  else if s = "S_PID" then some 0x21
  else if s = "S_VBUS" then some 0x24
  else if s = "S_CPHA" then some 0x27
  else if s = "S_ENCL" then some 0x31
  else if s = "S_TPOS" then some 0x33
  else if s = "S_VEL" then some 0x35
  else if s = "S_CPOS" then some 0x36
  else if s = "S_PERR" then some 0x37
  else if s = "S_FLAG" then some 0x3A
  else if s = "S_ORG" then some 0x3B
  else if s = "S_Conf" then some 0x42
  else if s = "S_State" then some 0x43
  else none

/-- `Read_Sys_Params(addr, s)`: `[addr, code, 0x6B]` when `s` is a known
parameter name, `[addr, 0x6B]` otherwise. -/
def Read_Sys_Params (addr : Nat) (s : String) : List Nat :=
  match func_codes s with
  | some c => [pyByte addr, c, 0x6B]
  | none => [pyByte addr, 0x6B]

/-- `Reset_CurPos_To_Zero(addr)`. -/
def Reset_CurPos_To_Zero (addr : Nat) : List Nat :=
  [pyByte addr, 0x0A, 0x6D, 0x6B]

/-- `Reset_Clog_Pro(addr)`. -/
def Reset_Clog_Pro (addr : Nat) : List Nat :=
  [pyByte addr, 0x0E, 0x52, 0x6B]

/-- `Modify_Ctrl_Mode(addr, svF, ctrl_mode)`. -/
def Modify_Ctrl_Mode (addr : Nat) (svF : Bool) (ctrl_mode : Nat) : List Nat :=
  [pyByte addr, 0x46, 0x69, boolByte svF, pyByte ctrl_mode, 0x6B]

/-- `En_Control(addr, state, snF)`. -/
def En_Control (addr : Nat) (state snF : Bool) : List Nat :=
  [pyByte addr, 0xF3, 0xAB, boolByte state, boolByte snF, 0x6B]

/-- `Vel_Control(addr, dir, vel, acc, snF)`.  The velocity is explicitly
masked to its two bytes; `dir` and `acc` are stored unmasked into the
bytearray, where the store itself truncates them to their low 8 bits. -/
def Vel_Control (addr dir vel acc : Nat) (snF : Bool) : List Nat :=
  [pyByte addr, 0xF6, pyByte dir, (vel >>> 8) &&& 0xFF, vel &&& 0xFF,
   pyByte acc, boolByte snF, 0x6B]

/-- `Pos_Control(addr, dir, vel, acc, clk, raF, snF)`. -/
def Pos_Control (addr dir vel acc clk : Nat) (raF snF : Bool) : List Nat :=
  [pyByte addr, 0xFD, pyByte dir, (vel >>> 8) &&& 0xFF, vel &&& 0xFF,
   pyByte acc, (clk >>> 24) &&& 0xFF, (clk >>> 16) &&& 0xFF,
   (clk >>> 8) &&& 0xFF, clk &&& 0xFF, boolByte raF, boolByte snF, 0x6B]

/-- `Stop_Now(addr, snF)`. -/
def Stop_Now (addr : Nat) (snF : Bool) : List Nat :=
  [pyByte addr, 0xFE, 0x98, boolByte snF, 0x6B]

/-- `Synchronous_motion(addr)`. -/
def Synchronous_motion (addr : Nat) : List Nat :=
  [pyByte addr, 0xFF, 0x66, 0x6B]

/-- `Origin_Set_O(addr, svF)`. -/
def Origin_Set_O (addr : Nat) (svF : Bool) : List Nat :=
  [pyByte addr, 0x93, 0x88, boolByte svF, 0x6B]

/-- `Origin_Modify_Params(addr, svF, o_mode, o_dir, o_vel, o_tm, sl_vel,
sl_ma, sl_ms, potF)`. -/
def Origin_Modify_Params (addr : Nat) (svF : Bool)
    (o_mode o_dir o_vel o_tm sl_vel sl_ma sl_ms : Nat) (potF : Bool) :
    List Nat :=
  [pyByte addr, 0x4C, 0xAE, boolByte svF, pyByte o_mode, pyByte o_dir,
   (o_vel >>> 8) &&& 0xFF, o_vel &&& 0xFF,
   (o_tm >>> 24) &&& 0xFF, (o_tm >>> 16) &&& 0xFF,
   (o_tm >>> 8) &&& 0xFF, o_tm &&& 0xFF,
   (sl_vel >>> 8) &&& 0xFF, sl_vel &&& 0xFF,
   (sl_ma >>> 8) &&& 0xFF, sl_ma &&& 0xFF,
   (sl_ms >>> 8) &&& 0xFF, sl_ms &&& 0xFF,
   boolByte potF, 0x6B]

/-- `Origin_Trigger_Return(addr, o_mode, snF)`. -/
def Origin_Trigger_Return (addr o_mode : Nat) (snF : Bool) : List Nat :=
  [pyByte addr, 0x9A, pyByte o_mode, boolByte snF, 0x6B]

/-- `Origin_Interrupt(addr)`. -/
def Origin_Interrupt (addr : Nat) : List Nat :=
  [pyByte addr, 0x9C, 0x48, 0x6B]

/-- On in-range bytes the truncating store is the identity. -/
theorem pyByte_eq {v : Nat} (h : v < 256) : pyByte v = v :=
  Nat.mod_eq_of_lt h

/-- A big-endian two-byte split reassembles to the value modulo `2^16`. -/
theorem twoByteRoundtrip (v : Nat) :
    ((v >>> 8) &&& 0xFF) * 256 + (v &&& 0xFF) = v % 65536 := by
  have e : (255 : Nat) = 2 ^ 8 - 1 := by norm_num
  rw [e]
  simp only [Nat.and_pow_two_sub_one_eq_mod, Nat.shiftRight_eq_div_pow]
  norm_num
  omega

/-- A big-endian four-byte split reassembles to the value modulo `2^32`. -/
theorem fourByteRoundtrip (v : Nat) :
    ((v >>> 24) &&& 0xFF) * 16777216 + ((v >>> 16) &&& 0xFF) * 65536 +
      ((v >>> 8) &&& 0xFF) * 256 + (v &&& 0xFF) = v % 4294967296 := by
  have e : (255 : Nat) = 2 ^ 8 - 1 := by norm_num
  rw [e]
  simp only [Nat.and_pow_two_sub_one_eq_mod, Nat.shiftRight_eq_div_pow]
  norm_num
  omega

/-- C8: encoding a position-control command with address 1, direction 0,
velocity 300, acceleration 5, pulses 3200, relative flag true and sync
flag false returns exactly the 13 bytes
`[0x01, 0xFD, 0x00, 0x01, 0x2C, 0x05, 0x00, 0x00, 0x0C, 0x80, 0x01,
0x00, 0x6B]`. -/
theorem C8_pos_control_scenario :
    Pos_Control 1 0 300 5 3200 true false =
      [0x01, 0xFD, 0x00, 0x01, 0x2C, 0x05, 0x00, 0x00, 0x0C, 0x80,
       0x01, 0x00, 0x6B] := rfl

/-- C2: every Command Encoder function is total over unsigned integer
inputs and raises no error — the MicroPython bytearray store truncates
an out-of-range single-byte value (direction, acceleration, address,
mode) to its low 8 bits, and the explicitly split multi-byte fields
keep only their masked bytes (a velocity keeps its low 16 bits).  Each
conjunct gives the exact frame for arbitrary, unbounded inputs, every
wrapped field reduced modulo its width. -/
theorem C2_encoders_total_wrap :
    (∀ addr s c, func_codes s = some c →
      Read_Sys_Params addr s = [addr % 256, c, 0x6B]) ∧
    (∀ addr s, func_codes s = none →
      Read_Sys_Params addr s = [addr % 256, 0x6B]) ∧
    (∀ addr, Reset_CurPos_To_Zero addr = [addr % 256, 0x0A, 0x6D, 0x6B]) ∧
    (∀ addr, Reset_Clog_Pro addr = [addr % 256, 0x0E, 0x52, 0x6B]) ∧
    (∀ addr svF m, Modify_Ctrl_Mode addr svF m =
      [addr % 256, 0x46, 0x69, boolByte svF, m % 256, 0x6B]) ∧
    (∀ addr st snF, En_Control addr st snF =
      [addr % 256, 0xF3, 0xAB, boolByte st, boolByte snF, 0x6B]) ∧
    (∀ addr dir vel acc snF,
      Vel_Control addr dir vel acc snF =
        [addr % 256, 0xF6, dir % 256, (vel >>> 8) &&& 0xFF, vel &&& 0xFF,
         acc % 256, boolByte snF, 0x6B] ∧
      ((vel >>> 8) &&& 0xFF) * 256 + (vel &&& 0xFF) = vel % 65536) ∧
    (∀ addr dir vel acc clk raF snF,
      Pos_Control addr dir vel acc clk raF snF =
        [addr % 256, 0xFD, dir % 256, (vel >>> 8) &&& 0xFF, vel &&& 0xFF,
         acc % 256, (clk >>> 24) &&& 0xFF, (clk >>> 16) &&& 0xFF,
         (clk >>> 8) &&& 0xFF, clk &&& 0xFF, boolByte raF, boolByte snF,
         0x6B]) ∧
    (∀ addr snF, Stop_Now addr snF =
      [addr % 256, 0xFE, 0x98, boolByte snF, 0x6B]) ∧
    (∀ addr, Synchronous_motion addr = [addr % 256, 0xFF, 0x66, 0x6B]) ∧
    (∀ addr svF, Origin_Set_O addr svF =
      [addr % 256, 0x93, 0x88, boolByte svF, 0x6B]) ∧
    (∀ addr svF m d ov otm sv sa sm potF,
      Origin_Modify_Params addr svF m d ov otm sv sa sm potF =
        [addr % 256, 0x4C, 0xAE, boolByte svF, m % 256, d % 256,
         (ov >>> 8) &&& 0xFF, ov &&& 0xFF,
         (otm >>> 24) &&& 0xFF, (otm >>> 16) &&& 0xFF,
         (otm >>> 8) &&& 0xFF, otm &&& 0xFF,
         (sv >>> 8) &&& 0xFF, sv &&& 0xFF,
         (sa >>> 8) &&& 0xFF, sa &&& 0xFF,
         (sm >>> 8) &&& 0xFF, sm &&& 0xFF,
         boolByte potF, 0x6B]) ∧
    (∀ addr m snF, Origin_Trigger_Return addr m snF =
      [addr % 256, 0x9A, m % 256, boolByte snF, 0x6B]) ∧
    (∀ addr, Origin_Interrupt addr = [addr % 256, 0x9C, 0x48, 0x6B]) := by
  refine ⟨?_, ?_, ?_, ?_, ?_, ?_, ?_, ?_, ?_, ?_, ?_, ?_, ?_, ?_⟩
  · intro addr s c hc
    unfold Read_Sys_Params
    rw [hc]
    rfl
  · intro addr s hc
    unfold Read_Sys_Params
    rw [hc]
    rfl
  · intro addr
    rfl
  · intro addr
    rfl
  · intro addr svF m
    rfl
  · intro addr st snF
    rfl
  · intro addr dir vel acc snF
    exact ⟨rfl, twoByteRoundtrip vel⟩
  · intro addr dir vel acc clk raF snF
    rfl
  · intro addr snF
    rfl
  · intro addr
    rfl
  · intro addr svF
    rfl
  · intro addr svF m d ov otm sv sa sm potF
    rfl
  · intro addr m snF
    rfl
  · intro addr
    rfl

theorem C2_encoders_total_wrap_witness :
    Read_Sys_Params 300 "S_CPOS" = [300 % 256, 0x36, 0x6B] ∧
    Read_Sys_Params 300 "S_NONE" = [300 % 256, 0x6B] ∧
    (Vel_Control 1 256 70000 0 false =
      [1 % 256, 0xF6, 256 % 256, (70000 >>> 8) &&& 0xFF, 70000 &&& 0xFF,
       0 % 256, boolByte false, 0x6B] ∧
     ((70000 >>> 8) &&& 0xFF) * 256 + (70000 &&& 0xFF) = 70000 % 65536) :=
  ⟨C2_encoders_total_wrap.1 300 "S_CPOS" 0x36 (by rfl),
   C2_encoders_total_wrap.2.1 300 "S_NONE" (by rfl),
   C2_encoders_total_wrap.2.2.2.2.2.2.1 1 256 70000 0 false⟩

/-- C6: every Command Encoder function, on valid inputs (single-byte
parameters in `0..255`, a known parameter name for `Read_Sys_Params`),
returns a frame of exactly the fixed length given by the operation's
table entry, whose final byte is `0x6B`. -/
theorem C6_frame_shapes :
    (∀ addr s c, addr < 256 → func_codes s = some c →
      (Read_Sys_Params addr s).length = 3 ∧
      (Read_Sys_Params addr s).getLast? = some 0x6B) ∧
    (∀ addr, addr < 256 → (Reset_CurPos_To_Zero addr).length = 4 ∧
      (Reset_CurPos_To_Zero addr).getLast? = some 0x6B) ∧
    (∀ addr, addr < 256 → (Reset_Clog_Pro addr).length = 4 ∧
      (Reset_Clog_Pro addr).getLast? = some 0x6B) ∧
    (∀ addr svF m, addr < 256 → m < 256 →
      (Modify_Ctrl_Mode addr svF m).length = 6 ∧
      (Modify_Ctrl_Mode addr svF m).getLast? = some 0x6B) ∧
    (∀ addr st snF, addr < 256 → (En_Control addr st snF).length = 6 ∧
      (En_Control addr st snF).getLast? = some 0x6B) ∧
    (∀ addr dir vel acc snF, addr < 256 → dir < 256 → acc < 256 →
      (Vel_Control addr dir vel acc snF).length = 8 ∧
      (Vel_Control addr dir vel acc snF).getLast? = some 0x6B) ∧
    (∀ addr dir vel acc clk raF snF, addr < 256 → dir < 256 → acc < 256 →
      (Pos_Control addr dir vel acc clk raF snF).length = 13 ∧
      (Pos_Control addr dir vel acc clk raF snF).getLast? = some 0x6B) ∧
    (∀ addr snF, addr < 256 → (Stop_Now addr snF).length = 5 ∧
      (Stop_Now addr snF).getLast? = some 0x6B) ∧
    (∀ addr, addr < 256 → (Synchronous_motion addr).length = 4 ∧
      (Synchronous_motion addr).getLast? = some 0x6B) ∧
    (∀ addr svF, addr < 256 → (Origin_Set_O addr svF).length = 5 ∧
      (Origin_Set_O addr svF).getLast? = some 0x6B) ∧
    (∀ addr svF m d ov otm sv sa sm potF, addr < 256 → m < 256 → d < 256 →
      (Origin_Modify_Params addr svF m d ov otm sv sa sm potF).length = 20 ∧
      (Origin_Modify_Params addr svF m d ov otm sv sa sm potF).getLast? =
        some 0x6B) ∧
    (∀ addr m snF, addr < 256 → m < 256 →
      (Origin_Trigger_Return addr m snF).length = 5 ∧
      (Origin_Trigger_Return addr m snF).getLast? = some 0x6B) ∧
    (∀ addr, addr < 256 → (Origin_Interrupt addr).length = 4 ∧
      (Origin_Interrupt addr).getLast? = some 0x6B) := by
  refine ⟨?_, ?_, ?_, ?_, ?_, ?_, ?_, ?_, ?_, ?_, ?_, ?_, ?_⟩
  · intro addr s c _ hc
    have h : Read_Sys_Params addr s = [pyByte addr, c, 0x6B] := by
      unfold Read_Sys_Params
      rw [hc]
    rw [h]
    exact ⟨rfl, rfl⟩
  · intro addr _
    exact ⟨rfl, rfl⟩
  · intro addr _
    exact ⟨rfl, rfl⟩
  · intro addr svF m _ _
    exact ⟨rfl, rfl⟩
  · intro addr st snF _
    exact ⟨rfl, rfl⟩
  · intro addr dir vel acc snF _ _ _
    exact ⟨rfl, rfl⟩
  · intro addr dir vel acc clk raF snF _ _ _
    exact ⟨rfl, rfl⟩
  · intro addr snF _
    exact ⟨rfl, rfl⟩
  · intro addr _
    exact ⟨rfl, rfl⟩
  · intro addr svF _
    exact ⟨rfl, rfl⟩
  · intro addr svF m d ov otm sv sa sm potF _ _ _
    exact ⟨rfl, rfl⟩
  · intro addr m snF _ _
    exact ⟨rfl, rfl⟩
  · intro addr _
    exact ⟨rfl, rfl⟩

theorem C6_frame_shapes_witness :
    ((Read_Sys_Params 1 "S_CPOS").length = 3 ∧
      (Read_Sys_Params 1 "S_CPOS").getLast? = some 0x6B) ∧
    ((Reset_CurPos_To_Zero 1).length = 4 ∧
      (Reset_CurPos_To_Zero 1).getLast? = some 0x6B) ∧
    ((Reset_Clog_Pro 1).length = 4 ∧
      (Reset_Clog_Pro 1).getLast? = some 0x6B) ∧
    ((Modify_Ctrl_Mode 1 true 2).length = 6 ∧
      (Modify_Ctrl_Mode 1 true 2).getLast? = some 0x6B) ∧
    ((En_Control 1 true false).length = 6 ∧
      (En_Control 1 true false).getLast? = some 0x6B) ∧
    ((Vel_Control 1 0 200 10 false).length = 8 ∧
      (Vel_Control 1 0 200 10 false).getLast? = some 0x6B) ∧
    ((Pos_Control 1 0 300 5 3200 true false).length = 13 ∧
      (Pos_Control 1 0 300 5 3200 true false).getLast? = some 0x6B) ∧
    ((Stop_Now 1 false).length = 5 ∧
      (Stop_Now 1 false).getLast? = some 0x6B) ∧
    ((Synchronous_motion 1).length = 4 ∧
      (Synchronous_motion 1).getLast? = some 0x6B) ∧
    ((Origin_Set_O 1 true).length = 5 ∧
      (Origin_Set_O 1 true).getLast? = some 0x6B) ∧
    ((Origin_Modify_Params 1 true 0 0 30 10000 300 800 60 false).length = 20 ∧
      (Origin_Modify_Params 1 true 0 0 30 10000 300 800 60 false).getLast? =
        some 0x6B) ∧
    ((Origin_Trigger_Return 1 0 false).length = 5 ∧
      (Origin_Trigger_Return 1 0 false).getLast? = some 0x6B) ∧
    ((Origin_Interrupt 1).length = 4 ∧
      (Origin_Interrupt 1).getLast? = some 0x6B) :=
  ⟨C6_frame_shapes.1 1 "S_CPOS" 0x36 (by decide) (by rfl),
   C6_frame_shapes.2.1 1 (by decide),
   C6_frame_shapes.2.2.1 1 (by decide),
   C6_frame_shapes.2.2.2.1 1 true 2 (by decide) (by decide),
   C6_frame_shapes.2.2.2.2.1 1 true false (by decide),
   C6_frame_shapes.2.2.2.2.2.1 1 0 200 10 false (by decide) (by decide)
     (by decide),
   C6_frame_shapes.2.2.2.2.2.2.1 1 0 300 5 3200 true false (by decide)
     (by decide) (by decide),
   C6_frame_shapes.2.2.2.2.2.2.2.1 1 false (by decide),
   C6_frame_shapes.2.2.2.2.2.2.2.2.1 1 (by decide),
   C6_frame_shapes.2.2.2.2.2.2.2.2.2.1 1 true (by decide),
   C6_frame_shapes.2.2.2.2.2.2.2.2.2.2.1 1 true 0 0 30 10000 300 800 60
     false (by decide) (by decide) (by decide),
   C6_frame_shapes.2.2.2.2.2.2.2.2.2.2.2.1 1 0 false (by decide) (by decide),
   C6_frame_shapes.2.2.2.2.2.2.2.2.2.2.2.2 1 (by decide)⟩

/-- C7: the big-endian multi-byte fields of encoded frames round-trip:
the two velocity bytes of `Vel_Control`/`Pos_Control` reassemble to the
input velocity modulo `2^16`, and the four pulse-count bytes of
`Pos_Control` (likewise the four homing-timeout bytes of
`Origin_Modify_Params`) reassemble to the input modulo `2^32`. -/
theorem C7_roundtrip :
    (∀ addr dir vel acc snF, addr < 256 → dir < 256 → acc < 256 →
      (Vel_Control addr dir vel acc snF)[3]! * 256 +
        (Vel_Control addr dir vel acc snF)[4]! = vel % 65536) ∧
    (∀ addr dir vel acc clk raF snF, addr < 256 → dir < 256 → acc < 256 →
      (Pos_Control addr dir vel acc clk raF snF)[3]! * 256 +
        (Pos_Control addr dir vel acc clk raF snF)[4]! = vel % 65536 ∧
      (Pos_Control addr dir vel acc clk raF snF)[6]! * 16777216 +
        (Pos_Control addr dir vel acc clk raF snF)[7]! * 65536 +
        (Pos_Control addr dir vel acc clk raF snF)[8]! * 256 +
        (Pos_Control addr dir vel acc clk raF snF)[9]! = clk % 4294967296) ∧
    (∀ addr svF m d ov otm sv sa sm potF, addr < 256 → m < 256 → d < 256 →
      (Origin_Modify_Params addr svF m d ov otm sv sa sm potF)[6]! * 256 +
        (Origin_Modify_Params addr svF m d ov otm sv sa sm potF)[7]! =
          ov % 65536 ∧
      (Origin_Modify_Params addr svF m d ov otm sv sa sm potF)[8]! *
          16777216 +
        (Origin_Modify_Params addr svF m d ov otm sv sa sm potF)[9]! * 65536 +
        (Origin_Modify_Params addr svF m d ov otm sv sa sm potF)[10]! * 256 +
        (Origin_Modify_Params addr svF m d ov otm sv sa sm potF)[11]! =
          otm % 4294967296) := by
  refine ⟨?_, ?_, ?_⟩
  · intro addr dir vel acc snF _ _ _
    simp only [Vel_Control, List.getElem!_cons_succ, List.getElem!_cons_zero]
    exact twoByteRoundtrip vel
  · intro addr dir vel acc clk raF snF _ _ _
    constructor
    · simp only [Pos_Control, List.getElem!_cons_succ,
        List.getElem!_cons_zero]
      exact twoByteRoundtrip vel
    · simp only [Pos_Control, List.getElem!_cons_succ,
        List.getElem!_cons_zero]
      exact fourByteRoundtrip clk
  · intro addr svF m d ov otm sv sa sm potF _ _ _
    constructor
    · simp only [Origin_Modify_Params, List.getElem!_cons_succ,
        List.getElem!_cons_zero]
      exact twoByteRoundtrip ov
    · simp only [Origin_Modify_Params, List.getElem!_cons_succ,
        List.getElem!_cons_zero]
      exact fourByteRoundtrip otm

theorem C7_roundtrip_witness :
    ((Vel_Control 1 0 70000 10 false)[3]! * 256 +
      (Vel_Control 1 0 70000 10 false)[4]! = 70000 % 65536) ∧
    ((Pos_Control 1 0 300 5 5000000000 true false)[3]! * 256 +
        (Pos_Control 1 0 300 5 5000000000 true false)[4]! = 300 % 65536 ∧
      (Pos_Control 1 0 300 5 5000000000 true false)[6]! * 16777216 +
        (Pos_Control 1 0 300 5 5000000000 true false)[7]! * 65536 +
        (Pos_Control 1 0 300 5 5000000000 true false)[8]! * 256 +
        (Pos_Control 1 0 300 5 5000000000 true false)[9]! =
          5000000000 % 4294967296) ∧
    ((Origin_Modify_Params 1 true 0 0 30 10000 300 800 60 false)[6]! * 256 +
        (Origin_Modify_Params 1 true 0 0 30 10000 300 800 60 false)[7]! =
          30 % 65536 ∧
      (Origin_Modify_Params 1 true 0 0 30 10000 300 800 60 false)[8]! *
          16777216 +
        (Origin_Modify_Params 1 true 0 0 30 10000 300 800 60 false)[9]! *
          65536 +
        (Origin_Modify_Params 1 true 0 0 30 10000 300 800 60 false)[10]! *
          256 +
        (Origin_Modify_Params 1 true 0 0 30 10000 300 800 60 false)[11]! =
          10000 % 4294967296) :=
  ⟨C7_roundtrip.1 1 0 70000 10 false (by decide) (by decide) (by decide),
   C7_roundtrip.2.1 1 0 300 5 5000000000 true false (by decide) (by decide)
     (by decide),
   C7_roundtrip.2.2 1 true 0 0 30 10000 300 800 60 false (by decide)
     (by decide) (by decide)⟩

/-- Lowercase hex digit characters, as produced by `"{:02x}".format`. -/
def hexDigitChar (n : Nat) : Char :=
  if n < 10 then Char.ofNat (48 + n) else Char.ofNat (87 + n)

/-- `"{:02x}".format(b)` for a byte `b < 256`: two lowercase hex digits. -/
def fmt02x (b : Nat) : List Char := [hexDigitChar (b / 16), hexDigitChar (b % 16)]

/-- `" ".join(...)`. -/
def joinSpace : List (List Char) → List Char
  | [] => []
  | [x] => x
  | x :: y :: xs => x ++ ' ' :: joinSpace (y :: xs)

/-- Membership in the strip set of Python's `.strip("00 ")`: the
characters `'0'` and `' '`. -/
def isStripChar (c : Char) : Bool := c = '0' || c = ' '

/-- Python `s.strip("00 ")`: remove leading and trailing characters that
are `'0'` or `' '`. -/
def stripChars (s : List Char) : List Char :=
  ((s.dropWhile isStripChar).reverse.dropWhile isStripChar).reverse

/-- The hex-string normalization `Receive_Data` applies to the
accumulated buffer before returning: format each byte as two hex digits,
join with spaces, strip the characters `'0'` and `' '` from both ends,
re-prepend `"0"` when the result is nonempty and does not start with
`'0'`, and report `len(hex_data.replace(" ", "")) // 2` as the count. -/
def pyPrependZero (s : List Char) : List Char :=
  match s with
  | [] => s
  | c :: _ => if c ≠ '0' then '0' :: s else s

def hexNormalize (buf : List Nat) : List Char × Nat :=
  let stripped := stripChars (joinSpace (buf.map fmt02x))
  let hd := pyPrependZero stripped
  (hd, (hd.filter (fun c => c ≠ ' ')).length / 2)

/-- State of `Receive_Data`'s polling loop: the uart's pending timed
arrivals (byte `b` available from time `t` on), the write index `i`, the
bytes accumulated so far (`rxCmd[:i]`), and the last-activity timestamp
`lTime`. -/
structure RxState where
  arrivals : List (Nat × Nat)
  i : Nat
  buf : List Nat
  lTime : Nat

/-- One fuel-indexed unfolding of `Receive_Data`'s `while True` loop.
`clock k` is the value `time.ticks_ms()` returns during the k-th
iteration.  When a byte is available (`uart.any()`), it is consumed only
if `i < 128`; otherwise the iteration does nothing.  When no byte is
available, the loop returns the normalized buffer once more than 100 ms
have passed since the last activity.  `none` means the loop did not
return within `fuel` iterations. -/
def rdRun (clock : Nat → Nat) : Nat → Nat → RxState → Option (List Char × Nat)
  | 0, _, _ => none
  | fuel + 1, k, s =>
    let now := clock k
    match s.arrivals with
    | (t, b) :: rest =>
      if t ≤ now then
        if s.i < 128 then
          rdRun clock fuel (k + 1) ⟨rest, s.i + 1, s.buf ++ [b], now⟩
        else rdRun clock fuel (k + 1) s
      else
        if 100 < now - s.lTime then some (hexNormalize s.buf)
        else rdRun clock fuel (k + 1) s
    | [] =>
      if 100 < now - s.lTime then some (hexNormalize s.buf)
      else rdRun clock fuel (k + 1) s

/-- `Receive_Data(uart)`: start with an empty buffer, `lTime` set to the
initial `ticks_ms()` reading (`clock 0`), and run the loop. -/
def Receive_Data (clock : Nat → Nat) (arrivals : List (Nat × Nat))
    (fuel : Nat) : Option (List Char × Nat) :=
  rdRun clock fuel 1 ⟨arrivals, 0, [], clock 0⟩

/-- Value of a lowercase hex digit character. -/
def hexCharVal (c : Char) : Nat :=
  if 97 ≤ c.toNat then c.toNat - 87 else c.toNat - 48

/-- Python `int(tok, 16)` on a token of hex digits. -/
def hexToNat (t : List Char) : Nat := t.foldl (fun n c => 16 * n + hexCharVal c) 0

/-- Helper for `pySplit` (Python `str.split()`): accumulate the current
word in reverse. -/
def pySplitAux : List Char → List Char → List (List Char)
  | [], acc => if acc = [] then [] else [acc.reverse]
  | c :: rest, acc =>
    if c = ' ' then
      if acc = [] then pySplitAux rest []
      else acc.reverse :: pySplitAux rest []
    else pySplitAux rest (c :: acc)

/-- Python `str.split()`: split on runs of whitespace, dropping empty
tokens. -/
def pySplit (s : List Char) : List (List Char) := pySplitAux s []

/-- `"".join(...)`. -/
def concatAll : List (List Char) → List Char
  | [] => []
  | x :: xs => x ++ concatAll xs

/-- What `Real_time_location` ends up printing: either the default 0.0
(the prefix check failed and `Motor_Cur_Pos` was never assigned) or a
decoded reading with a sign flag and an unsigned 32-bit magnitude, whose
printed angle is `mag * 360.0 / 65536.0`, negated when `neg` is set. -/
inductive Outcome where
  | defaultZero : Outcome
  | reading (neg : Bool) (mag : Nat) : Outcome
deriving DecidableEq

/-- The token-level decoding of `Real_time_location` once the guard
`count > 0 and data` has passed: check `int(data_hex[0], 16) == 0x01`
and `int(data_hex[1], 16) == 0x36` (an out-of-range index raises
`IndexError`), then `struct.unpack(">I", bytes.fromhex("".join(data_hex[3:7])))`
— `bytes.fromhex` raises `ValueError` on an odd number of hex digits and
`struct.unpack` raises `struct.error` unless given exactly 4 bytes —
and finally negate when `int(data_hex[2], 16)` is nonzero. -/
def decodeChecked (toks : List (List Char)) : Except String Outcome :=
  match toks.head? with
  | none => .error "IndexError: list index out of range"
  | some t0 =>
    if hexToNat t0 = 0x01 then
      match toks[1]? with
      | none => .error "IndexError: list index out of range"
      | some t1 =>
        if hexToNat t1 = 0x36 then
          let joined := concatAll ((toks.drop 3).take 4)
          if joined.length % 2 = 1 then
            .error "ValueError: non-hexadecimal number found in fromhex() arg"
          else if joined.length ≠ 8 then
            .error "struct.error: unpack requires a buffer of 4 bytes"
          else
            match toks[2]? with
            | none => .error "IndexError: list index out of range"
            | some t2 => .ok (.reading (hexToNat t2 != 0) (hexToNat joined))
        else .ok .defaultZero
    else .ok .defaultZero

/-- The decoding `Real_time_location` applies to the `(data, count)` pair
obtained from `Receive_Data`: the guard `count > 0 and data` falls
through to the default-zero print when it fails. -/
def decodeFrom (data : List Char) (count : Nat) : Except String Outcome :=
  if 0 < count ∧ data ≠ [] then decodeChecked (pySplit data)
  else .ok .defaultZero

/-- Decoding as a function of the raw received frame bytes: the frame
reaches the decode logic only through `Receive_Data`'s hex-string
normalization. -/
def decodeReceived (bs : List Nat) : Except String Outcome :=
  decodeFrom (hexNormalize bs).1 (hexNormalize bs).2

/-- Observable result of one terminating `Real_time_location` call:
the frames written to the uart, the decode outcome (`Except.error` when
a Python exception propagates), and the value returned to the caller. -/
structure RTLRun where
  writes : List (List Nat)
  outcome : Except String Outcome
  ret : Option Nat

/-- `Real_time_location(uart)`: builds the `S_CPOS` read request but
discards it without writing anything to the uart, collects a frame via
`Receive_Data`, decodes it, prints, and falls off the end (returning
`None`).  `none` means `Receive_Data` did not return within `fuel`
iterations. -/
def Real_time_location_run (clock : Nat → Nat) (arrivals : List (Nat × Nat))
    (fuel : Nat) : Option RTLRun :=
  let _req := Read_Sys_Params 1 "S_CPOS"
  match Receive_Data clock arrivals fuel with
  | none => none
  | some (data, count) => some ⟨[], decodeFrom data count, none⟩

/-- C1 names the intended decode behavior, but the code corrupts the
spec's own Scenario 3 frame before decoding: `Receive_Data`'s
`.strip("00 ")` removes the trailing `'0'` of the final byte `0x20`, so
`"".join(data_hex[3:7])` is the 7-character string `"00001c2"` and
`bytes.fromhex` raises `ValueError` — no angle of `7200 * 360 / 65536`
degrees is ever produced. -/
theorem C1_code_behavior :
    decodeReceived [0x01, 0x36, 0x00, 0x00, 0x00, 0x1C, 0x20] =
      .error "ValueError: non-hexadecimal number found in fromhex() arg" := rfl

/-- C4, as stated, is false: the one-byte frame `[0x01]` (shorter than 7
bytes) does not produce a recoverable "no reading" result — after
normalization it yields the single token `"01"`, the address check
passes, and `int(data_hex[1], 16)` raises `IndexError`. -/
theorem C4_counterexample :
    decodeReceived [0x01] = .error "IndexError: list index out of range" := rfl

theorem decodeChecked_head_ne (toks : List (List Char)) (t0 : List Char)
    (h : toks.head? = some t0) (hne : hexToNat t0 ≠ 0x01) :
    decodeChecked toks = .ok .defaultZero := by
  unfold decodeChecked
  rw [h]
  simp [hne]

theorem decodeChecked_second_ne (toks : List (List Char)) (t0 t1 : List Char)
    (h0 : toks.head? = some t0) (h01 : hexToNat t0 = 0x01)
    (h1 : toks[1]? = some t1) (hne : hexToNat t1 ≠ 0x36) :
    decodeChecked toks = .ok .defaultZero := by
  unfold decodeChecked
  rw [h0]
  simp [h01, h1, hne]

theorem decodeChecked_second_none (toks : List (List Char)) (t0 : List Char)
    (h0 : toks.head? = some t0) (h01 : hexToNat t0 = 0x01)
    (h1 : toks[1]? = none) :
    decodeChecked toks = .error "IndexError: list index out of range" := by
  unfold decodeChecked
  rw [h0]
  simp [h01, h1]

/-- C4 (amended): there is no explicit "no reading" result.  When the
guard `count > 0 and data` fails, or the first normalized token does not
parse to `0x01`, or a second token exists but does not parse to `0x36`,
the decode falls through and the printed angle stays at the default 0.0,
indistinguishable from a true zero-degree reading; and when the
normalization yields a single token parsing to `0x01` (e.g. the 1-byte
frame `[0x01]`), the decoder raises `IndexError` instead of returning. -/
theorem C4_amended :
    (∀ data count, ¬(0 < count ∧ data ≠ []) →
      decodeFrom data count = .ok .defaultZero) ∧
    (∀ data count t0, (pySplit data).head? = some t0 → hexToNat t0 ≠ 0x01 →
      decodeFrom data count = .ok .defaultZero) ∧
    (∀ data count t0 t1, (pySplit data).head? = some t0 →
      hexToNat t0 = 0x01 → (pySplit data)[1]? = some t1 →
      hexToNat t1 ≠ 0x36 → decodeFrom data count = .ok .defaultZero) ∧
    (∀ data count t0, 0 < count → data ≠ [] →
      (pySplit data).head? = some t0 → hexToNat t0 = 0x01 →
      (pySplit data)[1]? = none →
      decodeFrom data count = .error "IndexError: list index out of range") := by
  refine ⟨?_, ?_, ?_, ?_⟩
  · intro d c h
    unfold decodeFrom
    rw [if_neg h]
  · intro d c t0 h0 hne
    unfold decodeFrom
    by_cases hg : 0 < c ∧ d ≠ []
    · rw [if_pos hg]
      exact decodeChecked_head_ne _ _ h0 hne
    · rw [if_neg hg]
  · intro d c t0 t1 h0 h01 h1 hne
    unfold decodeFrom
    by_cases hg : 0 < c ∧ d ≠ []
    · rw [if_pos hg]
      exact decodeChecked_second_ne _ _ _ h0 h01 h1 hne
    · rw [if_neg hg]
  · intro d c t0 hc hd h0 h01 h1
    unfold decodeFrom
    rw [if_pos ⟨hc, hd⟩]
    exact decodeChecked_second_none _ _ h0 h01 h1

theorem C4_amended_witness :
    decodeFrom ['0', '2'] 1 = .ok .defaultZero ∧
    decodeFrom ['0', '1'] 1 = .error "IndexError: list index out of range" :=
  ⟨C4_amended.2.1 ['0', '2'] 1 ['0', '2'] (by rfl) (by decide),
   C4_amended.2.2.2 ['0', '1'] 1 ['0', '1'] (by decide) (by decide)
     (by rfl) (by decide) (by rfl)⟩

/-- C10: `Real_time_location` writes nothing to the uart — the frame
built by `Read_Sys_Params(1, "S_CPOS")` is discarded — and whenever the
call completes it returns `None`; the decoded angle is only printed,
never returned. -/
theorem C10_no_write_no_return :
    ∀ clock arrivals fuel r,
      Real_time_location_run clock arrivals fuel = some r →
      r.writes = [] ∧ r.ret = none := by
  intro clock arrivals fuel r h
  unfold Real_time_location_run at h
  rcases hR : Receive_Data clock arrivals fuel with _ | ⟨data, count⟩ <;>
    rw [hR] at h
  · exact absurd h (by simp)
  · rw [Option.some_inj] at h
    rw [← h]
    exact ⟨rfl, rfl⟩

theorem C10_no_write_no_return_witness :
    (RTLRun.mk [] (.ok .defaultZero) none).writes = [] ∧
    (RTLRun.mk [] (.ok .defaultZero) none).ret = none :=
  C10_no_write_no_return (fun k => 1000 * k) [(0, 2)] 5
    (RTLRun.mk [] (.ok .defaultZero) none) (by rfl)

theorem dropWhile_head?_not (l : List Char) (c : Char)
    (h : (l.dropWhile isStripChar).head? = some c) : isStripChar c = false := by
  induction l with
  | nil => simp at h
  | cons a as ih =>
    rw [List.dropWhile_cons] at h
    by_cases ha : isStripChar a = true
    · rw [if_pos ha] at h
      exact ih h
    · rw [if_neg ha] at h
      rw [List.head?_cons, Option.some_inj] at h
      rw [← h]
      simpa using ha

theorem stripChars_getLast?_not (s : List Char) (c : Char)
    (h : (stripChars s).getLast? = some c) : isStripChar c = false := by
  unfold stripChars at h
  rw [List.getLast?_eq_head?_reverse, List.reverse_reverse] at h
  exact dropWhile_head?_not _ _ h

theorem pyPrependZero_getLast?_of_ne (s : List Char) (hne : s ≠ []) :
    (pyPrependZero s).getLast? = s.getLast? := by
  rcases s with _ | ⟨c, cs⟩
  · exact absurd rfl hne
  · show (if c ≠ '0' then '0' :: c :: cs else c :: cs).getLast? =
      (c :: cs).getLast?
    by_cases hc : c ≠ '0'
    · rw [if_pos hc]
      exact List.getLast?_cons_cons
    · rw [if_neg hc]

/-- The normalized hex string never ends in a character of the strip set
(in particular, never in `'0'`). -/
theorem hexNormalize_fst_getLast?_not (bs : List Nat) (c : Char)
    (h : (hexNormalize bs).1.getLast? = some c) : isStripChar c = false := by
  have h' : (pyPrependZero (stripChars (joinSpace (bs.map fmt02x)))).getLast? =
      some c := h
  by_cases hne : stripChars (joinSpace (bs.map fmt02x)) = []
  · rw [hne] at h'
    simp [pyPrependZero] at h'
  · rw [pyPrependZero_getLast?_of_ne _ hne] at h'
    exact stripChars_getLast?_not _ _ h'

/-- `" ".join` ends with the last character of its last (nonempty)
token. -/
theorem joinSpace_getLast? (ls : List (List Char)) (x : List Char)
    (hx : ls.getLast? = some x) (hne : x ≠ []) :
    (joinSpace ls).getLast? = x.getLast? := by
  induction ls with
  | nil => simp at hx
  | cons a as ih =>
    cases as with
    | nil =>
      simp at hx
      rw [hx]
      rfl
    | cons b bs =>
      have hx' : (b :: bs).getLast? = some x := by
        rwa [List.getLast?_cons_cons] at hx
      have hj : (joinSpace (b :: bs)).getLast? = x.getLast? := ih hx'
      have hxs : x.getLast?.isSome := List.getLast?_isSome.mpr hne
      show (a ++ ' ' :: joinSpace (b :: bs)).getLast? = x.getLast?
      rw [List.getLast?_append]
      rcases hcase : joinSpace (b :: bs) with _ | ⟨d, ds⟩
      · rw [hcase] at hj
        simp at hj
        rw [← hj] at hxs
        simp at hxs
      · rw [hcase] at hj
        rw [List.getLast?_cons_cons, hj]
        rcases hxl : x.getLast? with _ | v
        · rw [hxl] at hxs
          simp at hxs
        · rfl

/-- C9: when the accumulated byte sequence ends in a nonzero byte whose
hex representation ends in the digit `0` (e.g. `0x20`), the hex-string
normalization of `Receive_Data` strips that trailing digit, so the
returned data and the reported byte count no longer correspond to the
bytes actually received (the un-stripped space-joined hex rendering of
the buffer together with its byte count). -/
theorem C9_strip_corrupts :
    ∀ (bs : List Nat) (b : Nat), bs.getLast? = some b → b ≠ 0 →
      b % 16 = 0 →
      ¬((hexNormalize bs).1 = joinSpace (bs.map fmt02x) ∧
        (hexNormalize bs).2 = bs.length) := by
  intro bs b hlast hb0 hb16 hcorr
  obtain ⟨heq, -⟩ := hcorr
  have hmap : (bs.map fmt02x).getLast? = some (fmt02x b) := by
    rw [List.getLast?_map, hlast]
    rfl
  have hfmt : (fmt02x b).getLast? = some '0' := by
    show (fmt02x b).getLast? = some '0'
    unfold fmt02x
    rw [hb16]
    rfl
  have hjoin : (joinSpace (bs.map fmt02x)).getLast? = some '0' := by
    rw [joinSpace_getLast? _ _ hmap (by simp [fmt02x])]
    exact hfmt
  rw [← heq] at hjoin
  have := hexNormalize_fst_getLast?_not bs '0' hjoin
  simp [isStripChar] at this

theorem C9_strip_corrupts_witness :
    ¬((hexNormalize [0x01, 0x20]).1 = joinSpace ([0x01, 0x20].map fmt02x) ∧
      (hexNormalize [0x01, 0x20]).2 = [0x01, 0x20].length) :=
  C9_strip_corrupts [0x01, 0x20] 0x20 (by decide) (by decide) (by decide)

/-- Overflow behavior of the receive loop: once `i` can no longer grow
past the 128-byte cap while bytes are still pending (available from time
0 on), `uart.any()` stays true, the pending bytes are never consumed
(`uart.read` is only called when `i < 128`), the silence check is never
reached, and the loop never returns, whatever the fuel. -/
theorem rd_overflow (clock : Nat → Nat) (fuel : Nat) :
    ∀ (k i lt : Nat) (buf l : List Nat), i ≤ 128 → 128 < i + l.length →
      rdRun clock fuel k ⟨l.map (fun x => (0, x)), i, buf, lt⟩ = none := by
  induction fuel with
  | zero =>
    intro k i lt buf l h1 h2
    rfl
  | succ fuel ih =>
    intro k i lt buf l h1 h2
    rcases l with _ | ⟨b, rest⟩
    · simp at h2
      omega
    · simp only [List.map_cons, rdRun]
      rw [if_pos (Nat.zero_le (clock k))]
      by_cases hi : i < 128
      · rw [if_pos hi]
        exact ih (k + 1) (i + 1) (clock k) (buf ++ [b]) rest (by omega)
          (by simp at h2 ⊢; omega)
      · rw [if_neg hi]
        have := ih (k + 1) i lt buf (b :: rest) h1 h2
        simpa using this

/-- C3, as stated, is false: when more bytes arrive than the 128-byte
capacity, the excess bytes are not consumed and `Receive_Data` does not
return at the next 100 ms silence — with 129 bytes pending from time 0
and an ever-advancing clock, the loop is still running after 1000
iterations. -/
theorem C3_counterexample :
    Receive_Data (fun k => k) ((List.replicate 129 0).map (fun x => (0, x)))
      1000 = none := by
  unfold Receive_Data
  exact rd_overflow (fun k => k) 1000 1 0 0 [] (List.replicate 129 0)
    (by omega) (by simp)

/-- With no pending arrivals and a monotone unbounded clock, the loop
returns within finitely many iterations (the gap check eventually
fires). -/
theorem rdRun_empty_terminates (clock : Nat → Nat) (hm : Monotone clock)
    (hu : ∀ B, ∃ k, B < clock k) (i lt : Nat) (buf : List Nat) :
    ∀ k, ∃ fuel out, rdRun clock fuel k ⟨[], i, buf, lt⟩ = some out := by
  obtain ⟨k0, hk0⟩ := hu (lt + 100)
  have main : ∀ n k, k0 - k ≤ n →
      ∃ fuel out, rdRun clock fuel k ⟨[], i, buf, lt⟩ = some out := by
    intro n
    induction n with
    | zero =>
      intro k hk
      have hc : lt + 100 < clock k := lt_of_lt_of_le hk0 (hm (by omega))
      refine ⟨1, hexNormalize buf, ?_⟩
      simp only [rdRun]
      rw [if_pos (by omega : 100 < clock k - lt)]
    | succ n ihn =>
      intro k hk
      by_cases hq : 100 < clock k - lt
      · refine ⟨1, hexNormalize buf, ?_⟩
        simp only [rdRun]
        rw [if_pos hq]
      · have hkk : k < k0 := by
          by_contra hge
          have := hm (by omega : k0 ≤ k)
          omega
        obtain ⟨fuel, out, hout⟩ := ihn (k + 1) (by omega)
        refine ⟨fuel + 1, out, ?_⟩
        simp only [rdRun]
        rw [if_neg hq]
        exact hout
  intro k
  exact main (k0 - k) k le_rfl

/-- With at most `128 - i` pending arrivals and a monotone unbounded
clock, the loop returns within finitely many iterations: each pending
byte is eventually consumed (or a 100 ms gap fires first), and the empty
line then terminates by `rdRun_empty_terminates`. -/
theorem rdRun_terminates (clock : Nat → Nat) (hm : Monotone clock)
    (hu : ∀ B, ∃ k, B < clock k) :
    ∀ (a : List (Nat × Nat)) (k i lt : Nat) (buf : List Nat),
      i + a.length ≤ 128 →
      ∃ fuel out, rdRun clock fuel k ⟨a, i, buf, lt⟩ = some out := by
  intro a
  induction a with
  | nil =>
    intro k i lt buf _
    exact rdRun_empty_terminates clock hm hu i lt buf k
  | cons p rest ih =>
    rcases p with ⟨t, b⟩
    intro k i lt buf hlen
    have hi : i < 128 := by
      simp at hlen
      omega
    have hrest : (i + 1) + rest.length ≤ 128 := by
      simp at hlen
      omega
    obtain ⟨k1, hk1⟩ := hu t
    have main : ∀ n k lt, k1 - k ≤ n →
        ∃ fuel out, rdRun clock fuel k ⟨(t, b) :: rest, i, buf, lt⟩ =
          some out := by
      intro n
      induction n with
      | zero =>
        intro k lt hk
        have ht : t ≤ clock k := le_of_lt (lt_of_lt_of_le hk1 (hm (by omega)))
        obtain ⟨fuel, out, hout⟩ := ih (k + 1) (i + 1) (clock k) (buf ++ [b])
          hrest
        refine ⟨fuel + 1, out, ?_⟩
        simp only [rdRun]
        rw [if_pos ht, if_pos hi]
        exact hout
      | succ n ihn =>
        intro k lt hk
        by_cases ht : t ≤ clock k
        · obtain ⟨fuel, out, hout⟩ := ih (k + 1) (i + 1) (clock k) (buf ++ [b])
            hrest
          refine ⟨fuel + 1, out, ?_⟩
          simp only [rdRun]
          rw [if_pos ht, if_pos hi]
          exact hout
        · by_cases hq : 100 < clock k - lt
          · refine ⟨1, hexNormalize buf, ?_⟩
            simp only [rdRun]
            rw [if_neg ht, if_pos hq]
          · have hkk : k < k1 := by
              by_contra hge
              have := hm (by omega : k1 ≤ k)
              omega
            obtain ⟨fuel, out, hout⟩ := ihn (k + 1) lt (by omega)
            refine ⟨fuel + 1, out, ?_⟩
            simp only [rdRun]
            rw [if_neg ht, if_neg hq]
            exact hout
    exact main (k1 - k) k lt le_rfl

/-- C3 (amended): for every inbound stream of at most 128 bytes (under a
monotone, unbounded millisecond clock) `Receive_Data` terminates once
the 100 ms silence condition is met; but bytes beyond the 128-byte
capacity are never consumed, and while they remain pending the call
never returns — they are not "consumed and silently dropped". -/
theorem C3_amended :
    (∀ (clock : Nat → Nat) (arrivals : List (Nat × Nat)),
      Monotone clock → (∀ B, ∃ k, B < clock k) → arrivals.length ≤ 128 →
      ∃ fuel out, Receive_Data clock arrivals fuel = some out) ∧
    (∀ (clock : Nat → Nat) (l : List Nat) (fuel : Nat), 128 < l.length →
      Receive_Data clock (l.map (fun x => (0, x))) fuel = none) := by
  constructor
  · intro clock a hm hu hlen
    unfold Receive_Data
    exact rdRun_terminates clock hm hu a 1 0 (clock 0) [] (by omega)
  · intro clock l fuel hlen
    unfold Receive_Data
    exact rd_overflow clock fuel 1 0 (clock 0) [] l (by omega) (by omega)

theorem C3_amended_witness :
    (∃ fuel out, Receive_Data (fun k => k) [] fuel = some out) ∧
    Receive_Data (fun k => k)
      ((List.replicate 129 0).map (fun x => (0, x))) 5 = none :=
  ⟨C3_amended.1 (fun k => k) [] (fun _ _ h => h)
      (fun B => ⟨B + 1, Nat.lt_succ_self B⟩) (by simp),
   C3_amended.2 (fun k => k) (List.replicate 129 0) 5 (by simp)⟩

/-- A concrete clock schedule realizing Scenario 5: the five data
iterations see times 1..5 ms, and the next poll happens at 154 ms —
149 ms of silence after the fifth byte (a 150 ms gap with the next
arrival at 160 ms). -/
def clockGap : Nat → Nat := fun k => if k ≤ 5 then k else 154

/-- C5, as stated, is false: the returned data and count pass through
the hex normalization, which corrupts them.  Five `0x00` bytes followed
by silence return the empty string and count 0 — not the five received
bytes (whose space-joined hex rendering is `"00 00 00 00 00"`). -/
theorem C5_counterexample :
    Receive_Data clockGap [(0, 0), (1, 0), (2, 0), (3, 0), (4, 0)] 7 =
      some ([], 0) ∧
    ([] : List Char) ≠ joinSpace ([0, 0, 0, 0, 0].map fmt02x) :=
  ⟨rfl, by decide⟩

/-- C5 (amended): with five bytes arriving at 0..4 ms and any further
bytes arriving only from 160 ms on, `Receive_Data` returns at the first
poll that finds more than 100 ms of silence, with exactly the five
accumulated bytes passed through the hex normalization (which may not
correspond to the received bytes, e.g. for zero bytes); bytes arriving
after the gap are not accumulated. -/
theorem C5_amended :
    ∀ (b1 b2 b3 b4 b5 : Nat) (post : List (Nat × Nat)),
      (∀ p ∈ post, 160 ≤ p.1) →
      Receive_Data clockGap
        ([(0, b1), (1, b2), (2, b3), (3, b4), (4, b5)] ++ post) 7 =
        some (hexNormalize [b1, b2, b3, b4, b5]) := by
  intro b1 b2 b3 b4 b5 post hpost
  unfold Receive_Data
  rcases post with _ | ⟨⟨t, c⟩, rest⟩
  · simp [rdRun, clockGap]
  · have ht : 160 ≤ t := hpost (t, c) (by simp)
    simp only [List.cons_append, List.nil_append]
    simp [rdRun, clockGap]
    intro h
    exact absurd h (by omega)

theorem C5_amended_witness :
    Receive_Data clockGap
      ([(0, 1), (1, 2), (2, 3), (3, 4), (4, 5)] ++ []) 7 =
      some (hexNormalize [1, 2, 3, 4, 5]) :=
  C5_amended 1 2 3 4 5 [] (by simp)
